import Mathlib

/-!
Verification development for an intrusion-detection pipeline
(`intrusion_detector.py`, `zone_detector.py`, `utils.py`).

Shallow embedding conventions:
* pixel coordinates and heuristic scores are embedded as exact rationals
  (`ℚ`); all float comparisons in the source act on small decimal
  constants, which `ℚ` represents exactly;
* Python integer floor division (`//`) is `Int.fdiv`, Python `int()`
  truncation toward zero is `pyInt`;
* OpenCV calls (background subtraction, morphology, contour extraction)
  are not geometry we can re-derive: per frame, the classifier's input is
  modelled as the list of extracted contours (area plus bounding
  rectangle), exactly the data `detect_persons` reads off each contour;
* shapely geometry calls are modelled by their documented exact
  semantics: `LineString.buffer(20).contains(p)` holds iff the distance
  from `p` to the polyline is strictly below 20 (strict, because
  `contains` tests the interior; the polygonal approximation of the
  round caps is not modelled), `Polygon.contains(p)` is the strict
  interior test (for simple polygons off the boundary: even–odd
  ray-crossing parity), `Point.distance(geom)` is the Euclidean distance
  to the nearest point of the geometry.  Distances are carried as
  squared distances so that everything stays in `ℚ`;
* Python exceptions are `Except`: `ZoneDetector.__init__`'s
  `ValueError`s become `Except.error`.  `process_video` raises nothing
  itself (OpenCV returns falsy values instead of raising when a source
  cannot be opened), so its embedding carries the spec's error type
  `VideoError` but only ever produces `Except.ok`.
-/

namespace IntrusionRepo

/-- A 2D point with exact rational coordinates. -/
abbrev Point : Type := ℚ × ℚ

/-- Python `int()` applied to a rational: truncation toward zero. -/
def pyInt (q : ℚ) : ℤ := if 0 ≤ q then ⌊q⌋ else ⌈q⌉

/-- Python `str.lower()`, as a structural character map (equivalent to
`String.toLower` on the ASCII type tags this program compares). -/
def pyLower (s : String) : String := ⟨s.data.map Char.toLower⟩

/-- Squared Euclidean distance between two points. -/
def distSq (p q : Point) : ℚ := (p.1 - q.1) ^ 2 + (p.2 - q.2) ^ 2

/-- Squared distance from `p` to the segment `[a, b]`, via the clamped
orthogonal projection. -/
def segDistSq (p a b : Point) : ℚ :=
  let dx := b.1 - a.1
  let dy := b.2 - a.2
  let len2 := dx ^ 2 + dy ^ 2
  if len2 = 0 then distSq p a
  else
    let t := max 0 (min 1 (((p.1 - a.1) * dx + (p.2 - a.2) * dy) / len2))
    distSq p (a.1 + t * dx, a.2 + t * dy)

/-- Consecutive-point segments of an open polyline (a shapely
`LineString` through `coords`). -/
def polylineEdges (coords : List Point) : List (Point × Point) :=
  coords.zip coords.tail

/-- Minimum of a list of rationals (`0` for the empty list; all uses
have at least one element). -/
def minD : List ℚ → ℚ
  | [] => 0
  | [a] => a
  | a :: b :: rest => min a (minD (b :: rest))

/-- Squared distance from `p` to the polyline through `coords`:
minimum over the consecutive segments. -/
def distSqToPolyline (p : Point) (coords : List Point) : ℚ :=
  minD ((polylineEdges coords).map (fun e => segDistSq p e.1 e.2))

/-- Edges of the closed ring through `coords` (each vertex to the next,
last back to first) — the boundary of a shapely `Polygon coords`. -/
def ringEdges (coords : List Point) : List (Point × Point) :=
  match coords with
  | [] => []
  | q :: t => coords.zip (t ++ [q])

/-- Squared distance from `p` to the closed ring through `coords`. -/
def distSqToRing (p : Point) (coords : List Point) : ℚ :=
  minD ((ringEdges coords).map (fun e => segDistSq p e.1 e.2))

/-! ### `utils.point_in_polygon` (literal embedding of the Python loop) -/

/-- The `xinters` value computed by `utils.point_in_polygon` for the
edge `p1 → p2` at scan height `y` (`if p1y != p2y: ... else: p1x`). -/
def pipXinters (y : ℚ) (p1 p2 : Point) : ℚ :=
  if p1.2 ≠ p2.2 then (y - p1.2) * (p2.1 - p1.1) / (p2.2 - p1.2) + p1.1
  else p1.1

/-- One loop iteration's toggle condition in `utils.point_in_polygon`:
the nested `if y > min … / if y <= max … / if x <= max … /
if p1x == p2x or x <= xinters` chain of the Python source, flattened
into one conjunction. -/
def pipToggle (x y : ℚ) (p1 p2 : Point) : Bool :=
  decide (min p1.2 p2.2 < y ∧ y ≤ max p1.2 p2.2 ∧ x ≤ max p1.1 p2.1 ∧
    (p1.1 = p2.1 ∨ x ≤ pipXinters y p1 p2))

/-- The loop of `utils.point_in_polygon` over the remaining `p2`
points: `inside` is flipped per toggling edge, `p1` is carried to the
next iteration. -/
def pipAux (x y : ℚ) : List Point → Bool → Point → Bool
  | [], inside, _ => inside
  | p2 :: rest, inside, p1 =>
      pipAux x y rest (if pipToggle x y p1 p2 then !inside else inside) p2

/-- `utils.point_in_polygon(point, polygon)`: ray-casting containment.
The Python loop visits `polygon[1], …, polygon[n-1], polygon[0]` as
successive `p2`, starting from `p1 = polygon[0]`.  (Python raises
`IndexError` on an empty polygon; the embedding returns `false` there,
and no claim involves an empty polygon.) -/
def point_in_polygon (p : Point) (polygon : List Point) : Bool :=
  match polygon with
  | [] => false
  | q :: t => pipAux p.1 p.2 (t ++ [q]) false q

/-! ### Model of the shapely polygon primitives -/

/-- Whether the horizontal ray from `(x, y)` rightwards crosses the
edge `e`, with the lower-open/upper-closed vertex convention.  This is
the cleaned-up per-edge condition of even–odd ray casting. -/
def crossesRay (x y : ℚ) (e : Point × Point) : Bool :=
  decide (min e.1.2 e.2.2 < y ∧ y ≤ max e.1.2 e.2.2 ∧
    x ≤ (y - e.1.2) * (e.2.1 - e.1.1) / (e.2.2 - e.1.2) + e.1.1)

/-- Even–odd crossing parity of the horizontal ray from `p` with the
closed ring through `coords`. -/
def evenOddInside (p : Point) (coords : List Point) : Bool :=
  (ringEdges coords).foldl (fun b e => xor b (crossesRay p.1 p.2 e)) false

/-- Whether `p` lies on the closed segment `[a, b]`: zero cross product
and inside the bounding box. -/
def onSegment (p a b : Point) : Bool :=
  decide ((b.1 - a.1) * (p.2 - a.2) - (b.2 - a.2) * (p.1 - a.1) = 0 ∧
    min a.1 b.1 ≤ p.1 ∧ p.1 ≤ max a.1 b.1 ∧
    min a.2 b.2 ≤ p.2 ∧ p.2 ≤ max a.2 b.2)

/-- Whether `p` lies on the boundary ring of the polygon `coords`. -/
def onRingBoundary (p : Point) (coords : List Point) : Bool :=
  (ringEdges coords).any fun e => onSegment p e.1 e.2

/-- Model of shapely `Polygon(coords).contains(Point p)`: the strict
interior test.  For a simple polygon, a point off the boundary is
interior iff its rightward ray crosses the boundary an odd number of
times (off the boundary, both half-open vertex conventions compute the
same parity); boundary points are excluded. -/
def shapelyPolygonContains (p : Point) (coords : List Point) : Bool :=
  evenOddInside p coords && !onRingBoundary p coords

/-! ### `zone_detector.ZoneDetector` -/

/-- The two zone kinds a constructed `ZoneDetector` can carry. -/
inductive ZType : Type
  | line : ZType
  | polygon : ZType
deriving DecidableEq

/-- A constructed zone: the stored coordinates and the (lowercased,
validated) type tag. -/
structure ZoneDetector : Type where
  zone_coords : List Point
  zone_type : ZType
deriving DecidableEq

/-- Whether an `Except` is an error (a raised Python exception). -/
def exceptFailed {ε α : Type} : Except ε α → Bool
  | .error _ => true
  | .ok _ => false

/-- `ZoneDetector.__init__(zone_coords, zone_type)`: lowercases the
type tag, then demands ≥ 2 points for `line` and ≥ 3 for `polygon`,
raising `ValueError` (modelled as `Except.error`) otherwise or for an
unknown type. -/
def ZoneDetector.init (zone_coords : List Point) (zone_type : String) :
    Except String ZoneDetector :=
  let zt := pyLower zone_type
  if zt = "line" then
    if zone_coords.length < 2 then .error "Line zone requires at least 2 points"
    else .ok ⟨zone_coords, .line⟩
  else if zt = "polygon" then
    if zone_coords.length < 3 then .error "Polygon zone requires at least 3 points"
    else .ok ⟨zone_coords, .polygon⟩
  else .error "Zone type must be 'line' or 'polygon'"

/-- `ZoneDetector.is_point_in_zone(point)`.  Line zones test
`self.zone_buffer.contains(point)` where `zone_buffer =
LineString(coords).buffer(20)`: the strict interior of the 20-unit
buffer, i.e. squared distance to the polyline < 20² = 400.  Polygon
zones test `Polygon(coords).contains(point)`. -/
def ZoneDetector.is_point_in_zone (z : ZoneDetector) (point : Point) : Bool :=
  match z.zone_type with
  | .line => decide (distSqToPolyline point z.zone_coords < 400)
  | .polygon => shapelyPolygonContains point z.zone_coords

/-- `ZoneDetector.get_distance_to_zone(point)` returns
`Point(point).distance(self.zone_geometry)` — the distance to the BASE
geometry (`LineString` or `Polygon`), not to the buffered zone.  The
embedding carries the squared distance (zero exactly when the source's
float distance is zero): distance to the polyline for a line zone; `0`
inside the polygon, distance to the boundary ring outside. -/
def ZoneDetector.get_distance_to_zone_sq (z : ZoneDetector) (point : Point) : ℚ :=
  match z.zone_type with
  | .line => distSqToPolyline point z.zone_coords
  | .polygon =>
      if evenOddInside point z.zone_coords then 0
      else distSqToRing point z.zone_coords

/-- The centroid computed by `ZoneDetector.draw_zone` (lines 106–107):
`int(sum(xs)/len)`, `int(sum(ys)/len)` — the truncated vertex average. -/
def ZoneDetector.zone_centroid (z : ZoneDetector) : ℤ × ℤ :=
  let n : ℚ := z.zone_coords.length
  (pyInt ((z.zone_coords.map Prod.fst).sum / n),
    pyInt ((z.zone_coords.map Prod.snd).sum / n))

/-! ### `intrusion_detector.IntrusionDetector` -/

/-- A detection emitted by `detect_persons`: the bounding box corners
`(x1, y1, x2, y2)` and the heuristic confidence. -/
structure Detection : Type where
  x1 : ℤ
  y1 : ℤ
  x2 : ℤ
  y2 : ℤ
  confidence : ℚ
deriving DecidableEq

/-- A foreground contour as `detect_persons` reads it:
`cv2.contourArea` and the `cv2.boundingRect` fields `x, y, w, h`
(with `w, h ≥ 1` for any real contour; the embedding keeps them
unconstrained integers). -/
structure Contour : Type where
  area : ℚ
  x : ℤ
  y : ℤ
  w : ℤ
  h : ℤ
deriving DecidableEq

/-- The contour filter of `IntrusionDetector.detect_persons`, one
`foldl` step per contour, mirroring the nested `if`s of the source:
`area > 500 and area < 50000`, then aspect `0.2 < w/h < 1.0 and
h > 50`, then `confidence = min(0.9, area/5000.0)` and
`confidence >= threshold`, appending `(x, y, x+w, y+h, confidence)`. -/
def detectStep (threshold : ℚ) (persons : List Detection) (c : Contour) :
    List Detection :=
  if 500 < c.area ∧ c.area < 50000 then
    if (0.2 : ℚ) < (c.w : ℚ) / (c.h : ℚ) ∧ (c.w : ℚ) / (c.h : ℚ) < 1 ∧ 50 < c.h then
      if threshold ≤ min (0.9 : ℚ) (c.area / 5000) then
        persons ++ [⟨c.x, c.y, c.x + c.w, c.y + c.h, min (0.9 : ℚ) (c.area / 5000)⟩]
      else persons
    else persons
  else persons

/-- `IntrusionDetector.detect_persons`, abstracted over the OpenCV
front end: the input is the list of contours extracted from the frame's
foreground mask, the output the surviving detections in order. -/
def detect_persons (threshold : ℚ) (contours : List Contour) : List Detection :=
  contours.foldl (detectStep threshold) []

/-- `IntrusionDetector.get_person_center`: the integer midpoint
`((x1+x2)//2, (y1+y2)//2)` (Python floor division). -/
def get_person_center (d : Detection) : Point :=
  (((Int.fdiv (d.x1 + d.x2) 2 : ℤ) : ℚ), ((Int.fdiv (d.y1 + d.y2) 2 : ℤ) : ℚ))

/-! ### `IntrusionDetector.process_video` -/

/-- The error taxonomy the specification names for the pipeline. -/
inductive VideoError : Type
  | openError : VideoError
  | writeError : VideoError
deriving DecidableEq

/-- Result of a completed `process_video` run: the returned total, how
many frames were annotated and written, the `(fps, width, height)` the
writer was configured with, and the progress values reported to the
callback, in order. -/
structure ProcessResult : Type where
  total_intrusions : ℕ
  frames_written : ℕ
  writer : ℤ × ℤ × ℤ
  progress : List ℚ
deriving DecidableEq

/-- Loop state of `process_video`: `frame_count`, `total_intrusions`,
and the progress reports so far (most recent first). -/
structure LoopState : Type where
  frame_count : ℕ
  total_intrusions : ℕ
  progressRev : List ℚ
deriving DecidableEq

/-- One iteration of the `process_video` loop on a frame (given by its
extracted contours): detect persons, bump the running total once per
person whose center is in the zone, bump `frame_count`, and report
`frame_count / total_frames` if a callback was supplied and
`total_frames > 0`. -/
def processFrame (threshold : ℚ) (z : ZoneDetector) (total_frames : ℤ)
    (hasCallback : Bool) (st : LoopState) (contours : List Contour) : LoopState :=
  let persons := detect_persons threshold contours
  let total := persons.foldl
    (fun t person =>
      if z.is_point_in_zone (get_person_center person) then t + 1 else t)
    st.total_intrusions
  let fc := st.frame_count + 1
  let progressRev :=
    if hasCallback && decide (0 < total_frames) then
      ((fc : ℚ) / (total_frames : ℚ)) :: st.progressRev
    else st.progressRev
  ⟨fc, total, progressRev⟩

/-- `IntrusionDetector.process_video(input, output, progress_callback)`.
`fps`, `width`, `height`, `total_frames` are the metadata read off the
capture (`int(cap.get(...))`; `0` or `-1` when the source cannot be
opened or is empty), `frames` the per-frame contour lists the capture
actually yields.  The source performs no open/dimension validation and
raises nothing — an unopenable source just yields no frames — so the
embedding always returns `Except.ok`; the `VideoError` carrier records
the error taxonomy the specification prescribes for this function. -/
def process_video (threshold : ℚ) (z : ZoneDetector)
    (fps width height total_frames : ℤ) (hasCallback : Bool)
    (frames : List (List Contour)) : Except VideoError ProcessResult :=
  let final := frames.foldl (processFrame threshold z total_frames hasCallback)
    ⟨0, 0, []⟩
  .ok ⟨final.total_intrusions, final.frame_count, (fps, width, height),
    final.progressRev.reverse⟩

/-! ### `utils.validate_coordinates` -/

/-- The per-point loop of `utils.validate_coordinates`: reject the
first coordinate with `x < 0 or x >= frame_width` (then the analogous
`y` test), else recurse.  The Python `isinstance` numeric check is
always satisfied (points are rationals here), and the index/value
payloads of the messages are elided. -/
def validate_points (coords : List Point) (frame_width frame_height : ℚ) :
    Bool × String :=
  match coords with
  | [] => (true, "Valid coordinates")
  | (x, y) :: rest =>
      if x < 0 ∨ frame_width ≤ x then
        (false, "X coordinate is outside frame width")
      else if y < 0 ∨ frame_height ≤ y then
        (false, "Y coordinate is outside frame height")
      else validate_points rest frame_width frame_height

/-- `utils.validate_coordinates(zone_coords, frame_width, frame_height)`:
`(is_valid, error_message)`. -/
def validate_coordinates (zone_coords : List Point)
    (frame_width frame_height : ℚ) : Bool × String :=
  if zone_coords = [] then (false, "No coordinates provided")
  else if zone_coords.length < 2 then (false, "At least 2 coordinates required")
  else validate_points zone_coords frame_width frame_height

/-! ### Concrete zones used by witnesses and counterexamples -/

/-- The line zone from `(0,0)` to `(100,0)` (spec §8's example). -/
def lineZone100 : ZoneDetector := ⟨[(0, 0), (100, 0)], .line⟩

/-- An axis-aligned square polygon zone with corners `(0,0)` and
`(10,10)`. -/
def sqZone10 : ZoneDetector := ⟨[(0, 0), (10, 0), (10, 10), (0, 10)], .polygon⟩

/-- A simple, non-convex (U-shaped) polygon zone: the notch
`(2,8) × (2,10]` is carved out of the square `(0,10)²` from above. -/
def uZone : ZoneDetector :=
  ⟨[(0, 0), (10, 0), (10, 10), (8, 10), (8, 2), (2, 2), (2, 10), (0, 10)], .polygon⟩

/-- The axis-aligned rectangle zone with corners `(x1,y1)` and
`(x2,y2)`, listed counter-clockwise as a polygon. -/
def rectZone (x1 y1 x2 y2 : ℤ) : ZoneDetector :=
  ⟨[((x1 : ℚ), (y1 : ℚ)), ((x2 : ℚ), (y1 : ℚ)), ((x2 : ℚ), (y2 : ℚ)),
    ((x1 : ℚ), (y2 : ℚ))], .polygon⟩

/-! ## Spec-side definitions for the classifier refinement (claim C2) -/

/-- The acceptance predicate of the classifier, written as one flat
condition (spec §4.2 steps 4–5, with the area interval open at both
ends as the source implements it). -/
def detectKeeps (threshold : ℚ) (c : Contour) : Bool :=
  decide (500 < c.area ∧ c.area < 50000 ∧
    (0.2 : ℚ) < (c.w : ℚ) / (c.h : ℚ) ∧ (c.w : ℚ) / (c.h : ℚ) < 1 ∧ 50 < c.h ∧
    threshold ≤ min (0.9 : ℚ) (c.area / 5000))

/-- The detection built from an accepted contour. -/
def detectBox (c : Contour) : Detection :=
  ⟨c.x, c.y, c.x + c.w, c.y + c.h, min (0.9 : ℚ) (c.area / 5000)⟩

/-- The intrusion total returned by a completed `process_video` run
(runs always return `.ok`; see claim C4). -/
def okTotal : Except VideoError ProcessResult → ℕ
  | .ok r => r.total_intrusions
  | .error _ => 0

/-- The progress sequence reported by a completed `process_video` run
(runs always return `.ok`; see claim C4). -/
def okProgress : Except VideoError ProcessResult → List ℚ
  | .ok r => r.progress
  | .error _ => []

/-! ## Helper lemmas -/

-- One classifier step appends exactly the accepted contour's box.
lemma detectStep_eq (threshold : ℚ) (acc : List Detection) (c : Contour) :
    detectStep threshold acc c =
      acc ++ if detectKeeps threshold c then [detectBox c] else [] := by
  by_cases hk : detectKeeps threshold c = true
  · have hc := hk
    rw [detectKeeps, decide_eq_true_eq] at hc
    obtain ⟨h1, h2, h3, h4, h5, h6⟩ := hc
    rw [hk, if_pos rfl, detectStep,
      if_pos ⟨h1, h2⟩, if_pos ⟨h3, h4, h5⟩, if_pos h6]
    rfl
  · have hc : ¬(500 < c.area ∧ c.area < 50000 ∧
        (0.2 : ℚ) < (c.w : ℚ) / (c.h : ℚ) ∧ (c.w : ℚ) / (c.h : ℚ) < 1 ∧
        50 < c.h ∧ threshold ≤ min (0.9 : ℚ) (c.area / 5000)) := by
      rwa [detectKeeps, decide_eq_true_eq] at hk
    have hk' : detectKeeps threshold c = false := by
      simpa using hk
    rw [hk', if_neg (by simp), List.append_nil, detectStep]
    split_ifs with g1 g2 g3
    · exact absurd ⟨g1.1, g1.2, g2.1, g2.2.1, g2.2.2, g3⟩ hc
    · rfl
    · rfl
    · rfl

lemma detect_foldl (threshold : ℚ) (cs : List Contour) :
    ∀ acc : List Detection,
      cs.foldl (detectStep threshold) acc =
        acc ++ (cs.filter (detectKeeps threshold)).map detectBox := by
  induction cs with
  | nil => intro acc; simp
  | cons c rest ih =>
      intro acc
      rw [List.foldl_cons, ih, detectStep_eq, List.filter_cons]
      by_cases h : detectKeeps threshold c = true
      · simp [h]
      · simp [h]

-- Counting by a fold of conditional increments is counting a filter.
lemma count_foldl (q : Detection → Bool) (l : List Detection) :
    ∀ acc : ℕ,
      l.foldl (fun t p => if q p then t + 1 else t) acc =
        acc + (l.filter q).length := by
  induction l with
  | nil => intro acc; simp
  | cons d rest ih =>
      intro acc
      rw [List.foldl_cons, List.filter_cons]
      by_cases h : q d = true
      · simp only [h, if_true, ih, List.length_cons]
        omega
      · simp [h, ih]

-- In-bounds points pass the per-point validation loop.
lemma validate_points_ok (coords : List Point) (w h : ℚ)
    (hb : ∀ p ∈ coords, 0 ≤ p.1 ∧ p.1 < w ∧ 0 ≤ p.2 ∧ p.2 < h) :
    (validate_points coords w h).1 = true := by
  induction coords with
  | nil => rfl
  | cons p rest ih =>
      obtain ⟨hx0, hxw, hy0, hyh⟩ := hb p (List.mem_cons_self p rest)
      have hrest := fun q hq => hb q (List.mem_cons_of_mem p hq)
      obtain ⟨x, y⟩ := p
      rw [validate_points]
      rw [if_neg (by push_neg; exact ⟨hx0, by simpa using hxw⟩),
        if_neg (by push_neg; exact ⟨hy0, by simpa using hyh⟩)]
      exact ih hrest

/-! ## Claim C2: the classifier's acceptance conditions -/

/-- Counterexample to claim C2 as stated: a contour of area exactly
50000 satisfies every condition the claim lists — area in
`(500, 50000]`, aspect ratio `0.6 ∈ (0.2, 1.0)`, height `100 > 50`,
confidence `min 0.9 10 = 0.9 ≥ 0.5` — yet `detect_persons` returns no
detection for it, because the source tests `area < 50000` strictly. -/
theorem detect_persons_area_50000_rejected :
    detect_persons (0.5 : ℚ) [⟨50000, 0, 0, 60, 100⟩] = [] ∧
    ((500 : ℚ) < 50000 ∧ (50000 : ℚ) ≤ 50000 ∧
      (0.2 : ℚ) < (60 : ℚ) / 100 ∧ (60 : ℚ) / 100 < 1 ∧ (50 : ℤ) < 100 ∧
      (0.5 : ℚ) ≤ min (0.9 : ℚ) (50000 / 5000)) := by
  constructor
  · rfl
  · refine ⟨by norm_num, le_refl _, by norm_num, by norm_num, by norm_num, ?_⟩
    norm_num

/-- Claim C2 (amended: the area interval is open at both ends,
`(500, 50000)`).  `detect_persons` emits a detection if and only if the
contour's area lies in `(500, 50000)`, its aspect ratio `w/h` lies in
`(0.2, 1.0)`, its bounding-rectangle height exceeds 50, and its
confidence `min(0.9, area/5000)` is at least the threshold; every
returned detection's confidence equals `min(0.9, area/5000)` and lies
in `[threshold, 0.9]`. -/
theorem detect_persons_spec (threshold : ℚ) (contours : List Contour) :
    detect_persons threshold contours =
      (contours.filter (detectKeeps threshold)).map detectBox ∧
    ∀ d ∈ detect_persons threshold contours,
      threshold ≤ d.confidence ∧ d.confidence ≤ 0.9 := by
  have h := detect_foldl threshold contours []
  rw [List.nil_append] at h
  refine ⟨h, ?_⟩
  intro d hd
  rw [detect_persons] at hd
  rw [h] at hd
  obtain ⟨c, hc, rfl⟩ := List.mem_map.1 hd
  have hk := (List.mem_filter.1 hc).2
  rw [detectKeeps, decide_eq_true_eq] at hk
  exact ⟨hk.2.2.2.2.2, min_le_left _ _⟩

/-- Witness for `detect_persons_spec`: the contour of area 2500 with a
60×100 box is accepted at threshold 0.5, and its confidence `1/2` lies
in `[0.5, 0.9]`. -/
theorem detect_persons_spec_witness :
    (0.5 : ℚ) ≤ (Detection.mk 0 0 60 100 (1/2)).confidence ∧
      (Detection.mk 0 0 60 100 (1/2)).confidence ≤ 0.9 :=
  (detect_persons_spec (0.5 : ℚ) [⟨2500, 0, 0, 60, 100⟩]).2
    (Detection.mk 0 0 60 100 (1/2)) (by
      have h : detect_persons (0.5 : ℚ) [⟨2500, 0, 0, 60, 100⟩] =
          [Detection.mk 0 0 60 100 (1/2)] := by
        norm_num [detect_persons, detectStep, min_def]
      rw [h]
      exact List.mem_singleton.2 rfl)

/-! ## Claim C4: no open-failure validation in `process_video` -/

/-- Counterexample to claim C4 as stated: for a source that cannot be
opened, OpenCV metadata reads back 0 (fps, width, height, frame count
all zero) and the capture yields no frames; `process_video` raises no
`VideoOpenError` — it completes normally with result `.ok`, returning
0 intrusions after configuring the writer with the invalid zero
dimensions and writing no frames. -/
theorem process_video_unopenable_returns_ok :
    process_video (1/2) lineZone100 0 0 0 0 false [] =
      .ok ⟨0, 0, (0, 0, 0), []⟩ ∧
    process_video (1/2) lineZone100 0 0 0 0 false [] ≠
      .error VideoError.openError := by
  exact ⟨rfl, by simp [process_video]⟩

/-- Claim C4 (amended): `process_video` performs no open/dimension
validation and never fails: every run returns `.ok`; on an input that
yields no frames (an unopenable source) it performs no per-frame work —
zero intrusions counted, zero frames written, no progress reported —
while still configuring the writer with whatever (possibly zero)
metadata was read. -/
theorem process_video_no_open_error (threshold : ℚ) (z : ZoneDetector)
    (fps width height total_frames : ℤ) (hasCallback : Bool)
    (frames : List (List Contour)) :
    (∃ r, process_video threshold z fps width height total_frames
        hasCallback frames = .ok r) ∧
    process_video threshold z fps width height total_frames hasCallback [] =
      .ok ⟨0, 0, (fps, width, height), []⟩ :=
  ⟨⟨_, rfl⟩, rfl⟩

/-! ## Claim C5: zone construction failures -/

/-- Counterexample to claim C5 as stated: the claim says construction
fails whenever the type is neither `'line'` nor `'polygon'`, but the
source lowercases the tag first, so `"LINE"` — which is neither string
— still constructs successfully from 2 points. -/
theorem init_uppercase_line_accepted :
    exceptFailed (ZoneDetector.init [((0 : ℚ), (0 : ℚ)), (1, 1)] "LINE") = false ∧
    "LINE" ≠ "line" ∧ "LINE" ≠ "polygon" :=
  ⟨rfl, by decide, by decide⟩

/-- Claim C5 (amended: the type tag is lowercased before comparison).
`ZoneDetector` construction fails iff the lowercased type is `'line'`
with fewer than 2 points, or `'polygon'` with fewer than 3 points, or
neither of the two; and the zero-length line zone on two identical
points is constructed without raising. -/
theorem zone_init_failure_characterization :
    (∀ (coords : List Point) (s : String),
      exceptFailed (ZoneDetector.init coords s) = true ↔
        (pyLower s = "line" ∧ coords.length < 2) ∨
        (pyLower s = "polygon" ∧ coords.length < 3) ∨
        (pyLower s ≠ "line" ∧ pyLower s ≠ "polygon")) ∧
    exceptFailed (ZoneDetector.init [((5 : ℚ), (5 : ℚ)), (5, 5)] "line") = false := by
  refine ⟨?_, rfl⟩
  intro coords s
  simp only [ZoneDetector.init]
  by_cases h1 : pyLower s = "line"
  · rw [if_pos h1]
    by_cases h2 : coords.length < 2
    · rw [if_pos h2]
      exact iff_of_true rfl (Or.inl ⟨h1, h2⟩)
    · rw [if_neg h2]
      refine iff_of_false (by simp [exceptFailed]) ?_
      rintro (⟨-, hl⟩ | ⟨hp, -⟩ | ⟨hne, -⟩)
      · exact h2 hl
      · rw [h1] at hp
        exact absurd hp (by decide)
      · exact hne h1
  · rw [if_neg h1]
    by_cases h3 : pyLower s = "polygon"
    · rw [if_pos h3]
      by_cases h4 : coords.length < 3
      · rw [if_pos h4]
        exact iff_of_true rfl (Or.inr (Or.inl ⟨h3, h4⟩))
      · rw [if_neg h4]
        refine iff_of_false (by simp [exceptFailed]) ?_
        rintro (⟨hl, -⟩ | ⟨-, hp⟩ | ⟨-, hne⟩)
        · exact h1 hl
        · exact h4 hp
        · exact hne h3
    · rw [if_neg h3]
      exact iff_of_true rfl (Or.inr (Or.inr ⟨h1, h3⟩))

/-! ## Claim C10: coordinate validation vs polygon construction -/

/-- Claim C10: `validate_coordinates` succeeds for every list of at
least 2 in-bounds points (it never sees the zone type), and the
concrete 2-point list `[(1,1),(2,2)]` passes validation for a 100×100
frame while `'polygon'` zone construction on it raises. -/
theorem validate_then_polygon_init :
    (∀ (coords : List Point) (w h : ℚ), 2 ≤ coords.length →
      (∀ p ∈ coords, 0 ≤ p.1 ∧ p.1 < w ∧ 0 ≤ p.2 ∧ p.2 < h) →
      (validate_coordinates coords w h).1 = true) ∧
    (validate_coordinates [((1 : ℚ), (1 : ℚ)), (2, 2)] 100 100).1 = true ∧
    exceptFailed (ZoneDetector.init [((1 : ℚ), (1 : ℚ)), (2, 2)] "polygon") = true := by
  refine ⟨?_, rfl, rfl⟩
  intro coords w h hlen hb
  rw [validate_coordinates]
  rw [if_neg (by rintro rfl; simp at hlen), if_neg (by omega)]
  exact validate_points_ok coords w h hb

/-- Witness for `validate_then_polygon_init`: the in-bounds pair
`[(1,1),(2,2)]` passes validation against a 100×100 frame. -/
theorem validate_then_polygon_init_witness :
    (validate_coordinates [((1 : ℚ), (1 : ℚ)), (2, 2)] 100 100).1 = true :=
  validate_then_polygon_init.1 [((1 : ℚ), (1 : ℚ)), (2, 2)] 100 100
    (by decide) (by decide)

/-! ## Claim C6: the 20-unit buffer of a line zone -/

/-- Claim C6: for every line zone, `is_point_in_zone` holds iff the
point lies (strictly) within perpendicular distance 20 of the line
segment(s) — in squared terms, iff the squared distance returned by
`get_distance_to_zone_sq` is below 20²; and for the line zone from
`(0,0)` to `(100,0)`, `(50, 10)` is inside and `(50, 25)` is outside.
(`buffer(20).contains` is a strict interior test, so a point at
distance exactly 20 is outside.) -/
theorem line_zone_buffer_containment :
    (∀ (z : ZoneDetector) (p : Point), z.zone_type = ZType.line →
      (z.is_point_in_zone p = true ↔ z.get_distance_to_zone_sq p < 20 ^ 2)) ∧
    lineZone100.is_point_in_zone (50, 10) = true ∧
    lineZone100.is_point_in_zone (50, 25) = false := by
  refine ⟨?_, ?_, ?_⟩
  · rintro ⟨coords, zt⟩ p h
    cases zt
    case polygon => simp [ZoneDetector.zone_type] at h
    case line =>
      simp only [ZoneDetector.is_point_in_zone, ZoneDetector.get_distance_to_zone_sq,
        decide_eq_true_eq]
      norm_num
  · simp only [lineZone100, ZoneDetector.is_point_in_zone, decide_eq_true_eq]
    norm_num [distSqToPolyline, polylineEdges, minD, segDistSq, distSq,
      min_def, max_def]
  · simp only [lineZone100, ZoneDetector.is_point_in_zone]
    norm_num [distSqToPolyline, polylineEdges, minD, segDistSq, distSq,
      min_def, max_def]

/-- Witness for `line_zone_buffer_containment`: instantiated at the
`(0,0)`–`(100,0)` line zone and the point `(50, 10)`. -/
theorem line_zone_buffer_containment_witness :
    lineZone100.get_distance_to_zone_sq (50, 10) < 20 ^ 2 :=
  (line_zone_buffer_containment.1 lineZone100 (50, 10) rfl).mp
    line_zone_buffer_containment.2.1

/-! ## Claim C7: distance to the zone geometry -/

/-- Counterexample to claim C7 as stated: for the line zone from
`(0,0)` to `(100,0)`, the point `(50, 10)` is classified inside the
zone (it is within the 20-unit buffer), yet `get_distance_to_zone`
returns 10 (squared: 100), not 0 — the source measures the distance to
`self.zone_geometry`, the bare `LineString`, not to the buffered zone
that `is_point_in_zone` tests. -/
theorem line_zone_inside_positive_distance :
    lineZone100.is_point_in_zone (50, 10) = true ∧
    lineZone100.get_distance_to_zone_sq (50, 10) = 100 ∧
    lineZone100.get_distance_to_zone_sq (50, 10) ≠ 0 := by
  refine ⟨?_, ?_, ?_⟩
  · simp only [lineZone100, ZoneDetector.is_point_in_zone, decide_eq_true_eq]
    norm_num [distSqToPolyline, polylineEdges, minD, segDistSq, distSq,
      min_def, max_def]
  · simp only [lineZone100, ZoneDetector.get_distance_to_zone_sq]
    norm_num [distSqToPolyline, polylineEdges, minD, segDistSq, distSq,
      min_def, max_def]
  · simp only [lineZone100, ZoneDetector.get_distance_to_zone_sq]
    norm_num [distSqToPolyline, polylineEdges, minD, segDistSq, distSq,
      min_def, max_def]

/-- Claim C7 (amended: the distance is measured to the zone's base
geometry, not the buffered zone): for polygon zones, every point
classified inside the zone has distance 0; for line zones, a point
inside the buffer but off the line has positive distance. -/
theorem polygon_zone_inside_distance_zero (z : ZoneDetector) (p : Point)
    (hz : z.zone_type = ZType.polygon) (hin : z.is_point_in_zone p = true) :
    z.get_distance_to_zone_sq p = 0 := by
  rcases z with ⟨coords, zt⟩
  cases zt
  case line => simp [ZoneDetector.zone_type] at hz
  case polygon =>
    simp only [ZoneDetector.is_point_in_zone, shapelyPolygonContains,
      Bool.and_eq_true] at hin
    simp only [ZoneDetector.get_distance_to_zone_sq]
    rw [if_pos hin.1]

/-- Witness for `polygon_zone_inside_distance_zero`: the center `(5,5)`
of the square zone on `(0,0)`–`(10,10)` is inside, and its distance
is 0. -/
theorem polygon_zone_inside_distance_zero_witness :
    sqZone10.get_distance_to_zone_sq (5, 5) = 0 :=
  polygon_zone_inside_distance_zero sqZone10 (5, 5) rfl (by
    simp only [sqZone10, ZoneDetector.is_point_in_zone, shapelyPolygonContains]
    norm_num [evenOddInside, ringEdges, crossesRay, onRingBoundary, onSegment,
      min_def, max_def])

/-! ## The `process_video` loop invariants -/

-- The running total after the loop is the initial total plus the
-- per-frame in-zone detection counts.
lemma process_total (threshold : ℚ) (z : ZoneDetector) (N : ℤ) (cb : Bool) :
    ∀ (frames : List (List Contour)) (st : LoopState),
      (frames.foldl (processFrame threshold z N cb) st).total_intrusions =
        st.total_intrusions + (frames.map (fun cs =>
          ((detect_persons threshold cs).filter
            (fun d => z.is_point_in_zone (get_person_center d))).length)).sum := by
  intro frames
  induction frames with
  | nil => intro st; simp
  | cons f rest ih =>
      intro st
      rw [List.foldl_cons, ih, List.map_cons, List.sum_cons]
      have hstep : (processFrame threshold z N cb st f).total_intrusions =
          st.total_intrusions + ((detect_persons threshold f).filter
            (fun d => z.is_point_in_zone (get_person_center d))).length := by
        simp only [processFrame]
        exact count_foldl (fun d => z.is_point_in_zone (get_person_center d))
          (detect_persons threshold f) st.total_intrusions
      rw [hstep, Nat.add_assoc]

-- The loop increments `frame_count` once per frame.
lemma process_fc (threshold : ℚ) (z : ZoneDetector) (N : ℤ) (cb : Bool) :
    ∀ (frames : List (List Contour)) (st : LoopState),
      (frames.foldl (processFrame threshold z N cb) st).frame_count =
        st.frame_count + frames.length := by
  intro frames
  induction frames with
  | nil => intro st; simp
  | cons f rest ih =>
      intro st
      rw [List.foldl_cons, ih]
      simp only [processFrame, List.length_cons]
      omega

-- With no callback (or a non-positive frame total) the loop never
-- reports progress.
lemma process_prog_off (threshold : ℚ) (z : ZoneDetector) (N : ℤ) (cb : Bool)
    (h : (cb && decide (0 < N)) = false) :
    ∀ (frames : List (List Contour)) (st : LoopState),
      (frames.foldl (processFrame threshold z N cb) st).progressRev =
        st.progressRev := by
  intro frames
  induction frames with
  | nil => intro st; rfl
  | cons f rest ih =>
      intro st
      rw [List.foldl_cons, ih]
      simp only [processFrame, h]
      rw [if_neg (by simp [h])]

-- With a callback and a positive frame total, the loop reports
-- `(frame_count + 1 + i) / N` for the i-th frame processed.
lemma process_prog_on (threshold : ℚ) (z : ZoneDetector) (N : ℤ) (cb : Bool)
    (h : (cb && decide (0 < N)) = true) :
    ∀ (frames : List (List Contour)) (st : LoopState),
      (frames.foldl (processFrame threshold z N cb) st).progressRev =
        ((List.range frames.length).map
          (fun i => ((st.frame_count + 1 + i : ℕ) : ℚ) / (N : ℚ))).reverse ++
          st.progressRev := by
  intro frames
  induction frames with
  | nil => intro st; simp
  | cons f rest ih =>
      intro st
      rw [List.foldl_cons, ih]
      have hfc : (processFrame threshold z N cb st f).frame_count =
          st.frame_count + 1 := rfl
      have hpr : (processFrame threshold z N cb st f).progressRev =
          (((st.frame_count + 1 : ℕ) : ℚ) / (N : ℚ)) :: st.progressRev := by
        simp only [processFrame]
        rw [if_pos h]
      rw [hfc, hpr, List.length_cons, List.range_succ_eq_map,
        List.map_cons, List.map_map, List.reverse_cons, List.append_assoc,
        List.singleton_append]
      congr 2
      · apply List.map_congr_left
        intro i _
        simp only [Function.comp_apply]
        congr 2
        omega

/-! ## Claim C1: the cumulative intrusion count -/

/-- Claim C1: `process_video` returns the cumulative intrusion count —
the sum over all frames, in order, of the number of detections in that
frame whose center point (the integer midpoint of the bounding box,
`get_person_center`) is contained by the zone; each such detection
increments the running total by one. -/
theorem process_video_cumulative_count (threshold : ℚ) (z : ZoneDetector)
    (fps width height total_frames : ℤ) (hasCallback : Bool)
    (frames : List (List Contour)) :
    okTotal (process_video threshold z fps width height total_frames
        hasCallback frames) =
      (frames.map (fun cs =>
        ((detect_persons threshold cs).filter
          (fun d => z.is_point_in_zone (get_person_center d))).length)).sum := by
  simp only [process_video, okTotal]
  rw [process_total]
  simp

/-! ## Claim C3: the progress report sequence -/

/-- Counterexample to claim C3 as stated: OpenCV's metadata frame count
is independent of how many frames the capture actually yields.  With a
reported total of 1 but 2 decodable frames, the callback receives the
values `[1, 2]` — the sequence leaves `[0, 1]` and does not end at 1.0
(no clamping exists in the source). -/
theorem process_video_progress_exceeds_one :
    okProgress (process_video (1/2) lineZone100 30 100 100 1 true [[], []]) =
      [1, 2] ∧
    ¬ ((2 : ℚ) ≤ 1) ∧
    (okProgress (process_video (1/2) lineZone100 30 100 100 1 true [[], []])).getLast? ≠
      some 1 := by
  have hEq : okProgress (process_video (1/2) lineZone100 30 100 100 1 true [[], []]) =
      [1, 2] := by
    norm_num [process_video, okProgress, processFrame, detect_persons]
  refine ⟨hEq, by norm_num, ?_⟩
  rw [hEq]
  simp

/-- Claim C3 (amended): when a callback is supplied and the reported
total frame count `N` is positive, the callback is invoked exactly once
per processed frame with value `framesProcessed / N`; the values are
always non-decreasing; when additionally the number of frames actually
read equals `N`, all values lie in `[0, 1]` and the last equals 1.0.
When no callback is supplied or `N ≤ 0` (unknown), it is never invoked.
(No clamping exists: if the stream yields more frames than `N`, the
values exceed 1.) -/
theorem process_video_progress_spec (threshold : ℚ) (z : ZoneDetector)
    (fps width height total_frames : ℤ) (hasCallback : Bool)
    (frames : List (List Contour)) :
    okProgress (process_video threshold z fps width height total_frames
        hasCallback frames) =
      (if hasCallback = true ∧ 0 < total_frames then
        (List.range frames.length).map
          (fun i => ((i + 1 : ℕ) : ℚ) / (total_frames : ℚ))
      else []) ∧
    (okProgress (process_video threshold z fps width height total_frames
        hasCallback frames)).Pairwise (· ≤ ·) ∧
    (hasCallback = true → 0 < total_frames →
      (frames.length : ℤ) = total_frames →
      (∀ v ∈ okProgress (process_video threshold z fps width height
          total_frames hasCallback frames), 0 ≤ v ∧ v ≤ 1) ∧
      (okProgress (process_video threshold z fps width height total_frames
          hasCallback frames)).getLast? = some 1) := by
  have hEq : okProgress (process_video threshold z fps width height total_frames
      hasCallback frames) =
      (if hasCallback = true ∧ 0 < total_frames then
        (List.range frames.length).map
          (fun i => ((i + 1 : ℕ) : ℚ) / (total_frames : ℚ))
      else []) := by
    simp only [process_video, okProgress]
    by_cases hcb : (hasCallback && decide (0 < total_frames)) = true
    · rw [process_prog_on threshold z total_frames hasCallback hcb]
      rw [Bool.and_eq_true, decide_eq_true_eq] at hcb
      rw [if_pos hcb]
      simp only [List.append_nil, List.reverse_reverse]
      apply List.map_congr_left
      intro i _
      congr 2
      omega
    · rw [process_prog_off threshold z total_frames hasCallback
        (by simpa using hcb)]
      rw [Bool.and_eq_true, decide_eq_true_eq] at hcb
      rw [if_neg hcb]
      rfl
  refine ⟨hEq, ?_, ?_⟩
  · rw [hEq]
    split_ifs with hc
    · rw [List.pairwise_map]
      apply (List.pairwise_lt_range frames.length).imp
      intro a b hab
      have hNq : (0 : ℚ) < (total_frames : ℚ) := by exact_mod_cast hc.2
      rw [div_le_div_iff_of_pos_right hNq]
      exact_mod_cast Nat.succ_le_succ hab.le
    · exact List.Pairwise.nil
  · intro hcbt hN hLen
    rw [hEq, if_pos ⟨hcbt, hN⟩]
    have hNq : (0 : ℚ) < (total_frames : ℚ) := by exact_mod_cast hN
    constructor
    · intro v hv
      obtain ⟨i, hi, rfl⟩ := List.mem_map.1 hv
      have hiN : i < frames.length := List.mem_range.1 hi
      refine ⟨div_nonneg (by positivity) hNq.le, ?_⟩
      rw [div_le_one hNq]
      have h1 : ((i + 1 : ℕ) : ℤ) ≤ (frames.length : ℤ) := by exact_mod_cast hiN
      have h2 : ((i + 1 : ℕ) : ℤ) ≤ total_frames := hLen ▸ h1
      exact_mod_cast h2
    · have h0 : frames.length ≠ 0 := by
        intro h0
        rw [h0] at hLen
        simp at hLen
        omega
      obtain ⟨m, hm⟩ := Nat.exists_eq_succ_of_ne_zero h0
      rw [hm, List.range_succ, List.map_append, List.map_singleton,
        List.getLast?_concat]
      congr 1
      rw [div_eq_one_iff_eq hNq.ne.symm]
      have : ((m + 1 : ℕ) : ℤ) = total_frames := by omega
      exact_mod_cast this

/-- Witness for `process_video_progress_spec`: a 2-frame run with
reported total 2 yields the progress sequence `[1/2, 1]`, ending
at 1.0. -/
theorem process_video_progress_spec_witness :
    okProgress (process_video (1/2) lineZone100 30 100 100 2 true [[], []]) =
      [1/2, 1] ∧
    (okProgress (process_video (1/2) lineZone100 30 100 100 2 true [[], []])).getLast? =
      some 1 := by
  obtain ⟨hEq, hPW, hMain⟩ :=
    process_video_progress_spec (1/2) lineZone100 30 100 100 2 true [[], []]
  have hLast := (hMain rfl (by norm_num) (by norm_num)).2
  refine ⟨?_, hLast⟩
  rw [hEq, if_pos ⟨rfl, by norm_num⟩]
  norm_num [List.range_succ]

/-! ## Claim C9: the utils ray caster vs the shapely containment test

The Python loop's per-edge toggle condition carries two redundant
guards (`x <= max(p1x, p2x)` and the `p1x == p2x` disjunct): whenever
the scan height `y` lies in the edge's half-open vertical range, the
ray/edge intersection abscissa `xinters` lies between the edge's
endpoint abscissas, which makes the guarded condition equivalent to the
bare `x ≤ xinters`.  That reduces the Python loop to the clean even–odd
crossing fold, which is the interior test for points off the
boundary. -/

-- For a scan height within the edge's vertical range, the intersection
-- abscissa lies between the endpoint abscissas.
lemma xinters_bounds (x1 y1 x2 y2 y : ℚ) (h1 : min y1 y2 < y)
    (h2 : y ≤ max y1 y2) :
    min x1 x2 ≤ (y - y1) * (x2 - x1) / (y2 - y1) + x1 ∧
    (y - y1) * (x2 - x1) / (y2 - y1) + x1 ≤ max x1 x2 := by
  have hne : y1 ≠ y2 := by
    intro he
    rw [he, min_self] at h1
    rw [he, max_self] at h2
    linarith
  set t := (y - y1) / (y2 - y1) with ht
  have hF : (y - y1) * (x2 - x1) / (y2 - y1) + x1 = x1 + t * (x2 - x1) := by
    rw [ht, div_mul_eq_mul_div, add_comm]
  have ht01 : 0 ≤ t ∧ t ≤ 1 := by
    rcases lt_or_gt_of_ne hne with hlt | hgt
    · have hy1y : y1 < y := by rwa [min_eq_left hlt.le] at h1
      have hyy2 : y ≤ y2 := by rwa [max_eq_right hlt.le] at h2
      have hd : (0 : ℚ) < y2 - y1 := by linarith
      constructor
      · exact div_nonneg (by linarith) hd.le
      · rw [ht, div_le_one hd]
        linarith
    · have hy2y : y2 < y := by rwa [min_eq_right hgt.le] at h1
      have hyy1 : y ≤ y1 := by rwa [max_eq_left hgt.le] at h2
      have hd : (0 : ℚ) < y1 - y2 := by linarith
      have htt : t = (y1 - y) / (y1 - y2) := by
        rw [ht, div_eq_div_iff (by intro h; exact hne (by linarith)) (by linarith)]
        ring
      constructor
      · rw [htt]
        exact div_nonneg (by linarith) hd.le
      · rw [htt, div_le_one hd]
        linarith
  obtain ⟨ht0, ht1⟩ := ht01
  rw [hF]
  rcases le_total x1 x2 with hx | hx
  · rw [min_eq_left hx, max_eq_right hx]
    constructor
    · have := mul_nonneg ht0 (sub_nonneg.2 hx)
      linarith
    · have := mul_le_of_le_one_left (sub_nonneg.2 hx) ht1
      linarith
  · rw [min_eq_right hx, max_eq_left hx]
    constructor
    · have := mul_le_mul_of_nonpos_right ht1 (sub_nonpos.2 hx)
      rw [one_mul] at this
      linarith
    · have := mul_nonpos_of_nonneg_of_nonpos ht0 (sub_nonpos.2 hx)
      linarith

-- The Python per-edge toggle equals the clean crossing condition.
lemma pipToggle_eq_crossesRay (x y : ℚ) (p1 p2 : Point) :
    pipToggle x y p1 p2 = crossesRay x y (p1, p2) := by
  rw [pipToggle, crossesRay, decide_eq_decide]
  by_cases h1 : min p1.2 p2.2 < y
  · by_cases h2 : y ≤ max p1.2 p2.2
    · have hne : p1.2 ≠ p2.2 := by
        intro he
        rw [he, min_self] at h1
        rw [he, max_self] at h2
        linarith
      have hb := xinters_bounds p1.1 p1.2 p2.1 p2.2 y h1 h2
      rw [pipXinters, if_pos hne]
      constructor
      · rintro ⟨-, -, hmax, hor⟩
        refine ⟨h1, h2, ?_⟩
        rcases hor with heq | hle
        · have hF : (y - p1.2) * (p2.1 - p1.1) / (p2.2 - p1.2) + p1.1 = p1.1 := by
            rw [← heq, sub_self, mul_zero, zero_div, zero_add]
          rw [hF]
          rw [← heq, max_self] at hmax
          exact hmax
        · exact hle
      · rintro ⟨-, -, hle⟩
        exact ⟨h1, h2, le_trans hle hb.2, Or.inr hle⟩
    · simp [h2]
  · simp [h1]

-- The Python loop, with `p1` carried, is the even–odd fold over the
-- consecutive-pair edges.
lemma pipAux_eq (x y : ℚ) (l : List Point) :
    ∀ (b : Bool) (p1 : Point),
      pipAux x y l b p1 =
        ((p1 :: l).zip l).foldl (fun acc e => xor acc (crossesRay x y e)) b := by
  induction l with
  | nil => intro b p1; rfl
  | cons p2 rest ih =>
      intro b p1
      rw [pipAux]
      rw [ih, List.zip_cons_cons, List.foldl_cons]
      congr 1
      rw [pipToggle_eq_crossesRay]
      cases crossesRay x y (p1, p2)
      · simp
      · simp

-- Zipping ignores a right extension of the longer list.
lemma zip_append_left {α β : Type} (r : List α) :
    ∀ (m : List β) (l : List α), m.length ≤ l.length →
      (l ++ r).zip m = l.zip m := by
  intro m
  induction m with
  | nil => intro l _; simp
  | cons b m' ih =>
      intro l hlen
      cases l with
      | nil => simp at hlen
      | cons a l' =>
          rw [List.cons_append, List.zip_cons_cons, List.zip_cons_cons,
            ih l' (by simpa using hlen)]

-- The literal Python ray caster computes even–odd crossing parity.
lemma point_in_polygon_eq_evenOdd (p : Point) (polygon : List Point) :
    point_in_polygon p polygon = evenOddInside p polygon := by
  cases polygon with
  | nil => rfl
  | cons q t =>
      rw [point_in_polygon, pipAux_eq, evenOddInside, ringEdges]
      congr 1
      have h : q :: (t ++ [q]) = (q :: t) ++ [q] := rfl
      rw [h, zip_append_left [q] (t ++ [q]) (q :: t) (by simp)]

/-- Claim C9: for every polygon and every point not on the polygon's
boundary, the standalone ray caster `utils.point_in_polygon` agrees
with the shapely-based containment test used by
`ZoneDetector.is_point_in_zone` for a polygon zone on the same
vertices.  (Proved for all vertex lists, not only simple polygons: off
the boundary the two compute the same even–odd crossing parity.) -/
theorem point_in_polygon_matches_shapely (polygon : List Point) (p : Point)
    (h : onRingBoundary p polygon = false) :
    point_in_polygon p polygon = shapelyPolygonContains p polygon := by
  rw [point_in_polygon_eq_evenOdd, shapelyPolygonContains, h]
  simp

/-- Witness for `point_in_polygon_matches_shapely`: the point `(5,5)`
is off the boundary of the square `(0,0)`–`(10,10)`, and both
containment tests agree there. -/
theorem point_in_polygon_matches_shapely_witness :
    onRingBoundary ((5 : ℚ), (5 : ℚ)) [(0, 0), (10, 0), (10, 10), (0, 10)] = false ∧
    point_in_polygon ((5 : ℚ), (5 : ℚ)) [(0, 0), (10, 0), (10, 10), (0, 10)] =
      shapelyPolygonContains ((5 : ℚ), (5 : ℚ)) [(0, 0), (10, 0), (10, 10), (0, 10)] := by
  have hb : onRingBoundary ((5 : ℚ), (5 : ℚ)) [(0, 0), (10, 0), (10, 10), (0, 10)] = false := by
    norm_num [onRingBoundary, ringEdges, onSegment, min_def, max_def]
  exact ⟨hb, point_in_polygon_matches_shapely _ _ hb⟩

/-! ## Claim C8: the polygon centroid -/

/-- Counterexample to claim C8 as stated: for the simple, non-convex
U-shaped polygon `uZone` (8 non-degenerate vertices), the computed
centroid — the truncated vertex average `(int(40/8), int(44/8)) =
(5, 5)` of `draw_zone` — falls in the carved-out notch, and the
containment test classifies it as outside. -/
theorem centroid_outside_nonconvex_polygon :
    3 ≤ uZone.zone_coords.length ∧
    uZone.zone_centroid = (5, 5) ∧
    uZone.is_point_in_zone ((5 : ℚ), (5 : ℚ)) = false := by
  refine ⟨by norm_num [uZone], ?_, ?_⟩
  · simp only [uZone, ZoneDetector.zone_centroid, List.map_cons, List.map_nil,
      List.sum_cons, List.sum_nil, List.length_cons, List.length_nil, pyInt]
    norm_num
  · simp only [uZone, ZoneDetector.is_point_in_zone, shapelyPolygonContains]
    norm_num [evenOddInside, ringEdges, crossesRay, min_def, max_def]

-- A point strictly inside an axis-aligned rectangle is accepted by the
-- polygon containment test.
lemma rect_contains_strict (a1 b1 a2 b2 px py : ℚ)
    (h1 : a1 < px) (h2 : px < a2) (h3 : b1 < py) (h4 : py < b2) :
    shapelyPolygonContains (px, py) [(a1, b1), (a2, b1), (a2, b2), (a1, b2)] = true := by
  have hb : b1 < b2 := lt_trans h3 h4
  have hE : ringEdges [(a1, b1), (a2, b1), (a2, b2), (a1, b2)] =
      [((a1, b1), (a2, b1)), ((a2, b1), (a2, b2)), ((a2, b2), (a1, b2)),
        ((a1, b2), (a1, b1))] := rfl
  have e1 : crossesRay px py ((a1, b1), (a2, b1)) = false := by
    rw [crossesRay, decide_eq_false_iff_not]
    rintro ⟨hA, hB, -⟩
    simp only [min_self, max_self] at hA hB
    linarith
  have e2 : crossesRay px py ((a2, b1), (a2, b2)) = true := by
    rw [crossesRay, decide_eq_true_eq]
    refine ⟨?_, ?_, ?_⟩
    · simp only
      rw [min_eq_left hb.le]
      exact h3
    · simp only
      rw [max_eq_right hb.le]
      exact h4.le
    · have hz : (py - b1) * (a2 - a2) / (b2 - b1) + a2 = a2 := by
        rw [sub_self, mul_zero, zero_div, zero_add]
      simp only
      rw [hz]
      exact h2.le
  have e3 : crossesRay px py ((a2, b2), (a1, b2)) = false := by
    rw [crossesRay, decide_eq_false_iff_not]
    rintro ⟨hA, hB, -⟩
    simp only [min_self, max_self] at hA hB
    linarith
  have e4 : crossesRay px py ((a1, b2), (a1, b1)) = false := by
    rw [crossesRay, decide_eq_false_iff_not]
    rintro ⟨-, -, hC⟩
    rw [sub_self, mul_zero, zero_div, zero_add] at hC
    simp only at hC
    linarith
  have s1 : onSegment (px, py) (a1, b1) (a2, b1) = false := by
    rw [onSegment, decide_eq_false_iff_not]
    rintro ⟨-, -, -, -, hy2⟩
    simp only [max_self] at hy2
    linarith
  have s2 : onSegment (px, py) (a2, b1) (a2, b2) = false := by
    rw [onSegment, decide_eq_false_iff_not]
    rintro ⟨-, hx1, -⟩
    simp only [min_self] at hx1
    linarith
  have s3 : onSegment (px, py) (a2, b2) (a1, b2) = false := by
    rw [onSegment, decide_eq_false_iff_not]
    rintro ⟨-, -, -, hy1, -⟩
    simp only [min_self] at hy1
    linarith
  have s4 : onSegment (px, py) (a1, b2) (a1, b1) = false := by
    rw [onSegment, decide_eq_false_iff_not]
    rintro ⟨-, -, hx2, -⟩
    simp only [max_self] at hx2
    linarith
  have hEO : evenOddInside (px, py) [(a1, b1), (a2, b1), (a2, b2), (a1, b2)] = true := by
    rw [evenOddInside, hE]
    simp [e1, e2, e3, e4]
  have hOB : onRingBoundary (px, py) [(a1, b1), (a2, b1), (a2, b2), (a1, b2)] = false := by
    rw [onRingBoundary, hE]
    simp [s1, s2, s3, s4]
  rw [shapelyPolygonContains, hEO, hOB]
  rfl

-- The computed centroid of an axis-aligned rectangle zone with
-- non-negative integer corners is the floor of the coordinate means.
lemma rectZone_centroid (x1 y1 x2 y2 : ℤ) (hx0 : 0 ≤ x1) (hy0 : 0 ≤ y1)
    (hx : x1 ≤ x2) (hy : y1 ≤ y2) :
    (rectZone x1 y1 x2 y2).zone_centroid =
      (⌊((x1 : ℚ) + x2) / 2⌋, ⌊((y1 : ℚ) + y2) / 2⌋) := by
  have h01 : (0 : ℚ) ≤ (x1 : ℚ) := by exact_mod_cast hx0
  have h02 : (0 : ℚ) ≤ (x2 : ℚ) := by exact_mod_cast le_trans hx0 hx
  have h03 : (0 : ℚ) ≤ (y1 : ℚ) := by exact_mod_cast hy0
  have h04 : (0 : ℚ) ≤ (y2 : ℚ) := by exact_mod_cast le_trans hy0 hy
  simp only [rectZone, ZoneDetector.zone_centroid, List.map_cons, List.map_nil,
    List.sum_cons, List.sum_nil, List.length_cons, List.length_nil]
  have hA : ((x1 : ℚ) + ((x2 : ℚ) + ((x2 : ℚ) + ((x1 : ℚ) + 0)))) / ((4 : ℕ) : ℚ) =
      ((x1 : ℚ) + (x2 : ℚ)) / 2 := by
    push_cast
    ring
  have hB : ((y1 : ℚ) + ((y1 : ℚ) + ((y2 : ℚ) + ((y2 : ℚ) + 0)))) / ((4 : ℕ) : ℚ) =
      ((y1 : ℚ) + (y2 : ℚ)) / 2 := by
    push_cast
    ring
  rw [hA, hB, pyInt, pyInt,
    if_pos (div_nonneg (by linarith) (by norm_num)),
    if_pos (div_nonneg (by linarith) (by norm_num))]

/-- Claim C8 (amended: the centroid of a non-convex polygon can fall
outside it, so the property is restricted to axis-aligned rectangle
zones): for every axis-aligned rectangle zone with non-negative integer
corners and both side lengths at least 2, the point at the computed
centroid is classified as inside by the zone containment test. -/
theorem rectangle_centroid_inside (x1 y1 x2 y2 : ℤ)
    (hx0 : 0 ≤ x1) (hy0 : 0 ≤ y1) (hx : x1 + 2 ≤ x2) (hy : y1 + 2 ≤ y2) :
    (rectZone x1 y1 x2 y2).is_point_in_zone
      ((((rectZone x1 y1 x2 y2).zone_centroid.1 : ℤ) : ℚ),
        (((rectZone x1 y1 x2 y2).zone_centroid.2 : ℤ) : ℚ)) = true := by
  have hc := rectZone_centroid x1 y1 x2 y2 hx0 hy0 (by omega) (by omega)
  rw [hc]
  have hxq : (x1 : ℚ) + 2 ≤ (x2 : ℚ) := by exact_mod_cast hx
  have hyq : (y1 : ℚ) + 2 ≤ (y2 : ℚ) := by exact_mod_cast hy
  have hx1c : x1 < ⌊((x1 : ℚ) + x2) / 2⌋ := by
    have h1 : (x1 + 1 : ℤ) ≤ ⌊((x1 : ℚ) + x2) / 2⌋ := by
      rw [Int.le_floor]
      push_cast
      linarith
    omega
  have hcx2 : ⌊((x1 : ℚ) + x2) / 2⌋ < x2 := by
    rw [Int.floor_lt]
    linarith
  have hy1c : y1 < ⌊((y1 : ℚ) + y2) / 2⌋ := by
    have h1 : (y1 + 1 : ℤ) ≤ ⌊((y1 : ℚ) + y2) / 2⌋ := by
      rw [Int.le_floor]
      push_cast
      linarith
    omega
  have hcy2 : ⌊((y1 : ℚ) + y2) / 2⌋ < y2 := by
    rw [Int.floor_lt]
    linarith
  have hmain := rect_contains_strict (x1 : ℚ) (y1 : ℚ) (x2 : ℚ) (y2 : ℚ)
    ((⌊((x1 : ℚ) + x2) / 2⌋ : ℤ) : ℚ) ((⌊((y1 : ℚ) + y2) / 2⌋ : ℤ) : ℚ)
    (by exact_mod_cast hx1c) (by exact_mod_cast hcx2)
    (by exact_mod_cast hy1c) (by exact_mod_cast hcy2)
  simpa [rectZone, ZoneDetector.is_point_in_zone] using hmain

/-- Witness for `rectangle_centroid_inside`: the square with corners
`(0,0)` and `(10,10)` contains its computed centroid `(5, 5)`. -/
theorem rectangle_centroid_inside_witness :
    (rectZone 0 0 10 10).is_point_in_zone
      ((((rectZone 0 0 10 10).zone_centroid.1 : ℤ) : ℚ),
        (((rectZone 0 0 10 10).zone_centroid.2 : ℤ) : ℚ)) = true :=
  rectangle_centroid_inside 0 0 10 10 (by norm_num) (by norm_num)
    (by norm_num) (by norm_num)

end IntrusionRepo
